/-
Verification of the schemahub crypto-data-platform against its specification.

This file gives a shallow embedding, in Lean 4, of the parts of the
`schemahub` Python package that the specification talks about:

* `schemahub/health.py`   — exchange health state and circuit breaker
* `schemahub/checkpoint.py` — checkpoint key layout
* `schemahub/cli.py`      — ingest / backfill control flow and raw object keys
* `schemahub/parallel.py` — the work-queue parallel fetcher
* `schemahub/validation.py` — batch schema validation
* `schemahub/transform.py`  — raw-to-unified record projection

Python floats are modelled as exact rationals (the arithmetic the claims
mention — EMA updates, error-rate fractions, cooldown arithmetic — is exact
decimal arithmetic in the relevant range), Python ints as naturals
(all the quantities involved are non-negative), Python strings as `String`,
and Python dictionaries as structures with `Option` fields.  External calls
(the exchange HTTP API, `datetime.fromisoformat`) are abstracted as function
parameters.  Side effects (S3 puts, checkpoint puts) are made explicit either
as returned values or as event traces.
-/
import Mathlib

namespace Schemahub

/-! ## Health state and circuit breaker (`schemahub/health.py`) -/

/-- `MAX_RETRIES = 5` in `health.py`. -/
def MAX_RETRIES : ℕ := 5

/-- `CIRCUIT_OPEN_WAIT_SECONDS = 10` in `health.py`. -/
def CIRCUIT_OPEN_WAIT_SECONDS : ℕ := 10

/-- `MAX_CIRCUIT_WAIT_SECONDS = 120` in `health.py`. -/
def MAX_CIRCUIT_WAIT_SECONDS : ℕ := 120

/-- `SUCCESS_THRESHOLD = 3` in `health.py`. -/
def SUCCESS_THRESHOLD : ℕ := 3

/-- `DEGRADED_ERROR_RATE = 0.1` in `health.py`. -/
def DEGRADED_ERROR_RATE : ℚ := 1/10

/-- `UNHEALTHY_ERROR_RATE = 0.3` in `health.py`. -/
def UNHEALTHY_ERROR_RATE : ℚ := 3/10

/-- `ROLLING_WINDOW_SIZE = 100` in `health.py`. -/
def ROLLING_WINDOW_SIZE : ℕ := 100

/-- The `ExchangeHealth` dataclass of `health.py`.  The Python code keeps the
circuit state and status as strings ("closed"/"open"/"half_open",
"healthy"/"degraded"/"unhealthy"); we keep them as strings too.
`recent_results` is the in-memory rolling window (not stored in DynamoDB). -/
structure ExchangeHealth where
  exchange_name : String
  timestamp : String
  status : String := "healthy"
  circuit_state : String := "closed"
  consecutive_failures : ℕ := 0
  consecutive_successes : ℕ := 0
  last_success_ts : Option String := none
  last_failure_ts : Option String := none
  last_error_message : Option String := none
  avg_response_time_ms : ℚ := 0
  error_rate : ℚ := 0
  request_count : ℕ := 0
  ttl : ℕ := 0
  reopen_count : ℕ := 0
  recent_results : List Bool := []
deriving Repr, DecidableEq

/-- Number of `False` entries in the rolling window
(`sum(1 for r in health.recent_results if not r)`). -/
def countFailures (l : List Bool) : ℕ := (l.filter (fun r => !r)).length

/-- The rolling-window update common to `record_success` / `record_failure`:
append the outcome and `pop(0)` once when the window exceeds
`ROLLING_WINDOW_SIZE`. -/
def pushWindow (l : List Bool) (outcome : Bool) : List Bool :=
  let l' := l ++ [outcome]
  if ROLLING_WINDOW_SIZE < l'.length then l'.tail else l'

/-- Recompute `error_rate` from the rolling window; if the window is empty the
old rate is kept (`if health.recent_results:` guard in the source). -/
def windowErrorRate (l : List Bool) (old : ℚ) : ℚ :=
  if l.isEmpty then old else (countFailures l : ℚ) / (l.length : ℚ)

/-- `CircuitBreaker.record_success` from `health.py`, as a pure function of the
health value read by `get_health`.  `now` stands for
`datetime.now(timezone.utc).isoformat()`; the DynamoDB persist and metric
emission write back exactly the returned value. -/
def record_success (h : ExchangeHealth) (now : String) (response_time_ms : ℚ) :
    ExchangeHealth :=
  let avg :=
    if h.avg_response_time_ms = 0 then response_time_ms
    else 8/10 * h.avg_response_time_ms + 2/10 * response_time_ms
  let recent := pushWindow h.recent_results true
  let h1 : ExchangeHealth :=
    { h with
      consecutive_successes := h.consecutive_successes + 1
      consecutive_failures := 0
      last_success_ts := some now
      request_count := h.request_count + 1
      avg_response_time_ms := avg
      recent_results := recent
      error_rate := windowErrorRate recent h.error_rate }
  if h1.circuit_state = "half_open" then
    if SUCCESS_THRESHOLD ≤ h1.consecutive_successes then
      { h1 with circuit_state := "closed", status := "healthy", reopen_count := 0 }
    else h1
  else if h1.circuit_state = "closed" then
    { h1 with
      status :=
        if h1.error_rate < DEGRADED_ERROR_RATE then "healthy"
        else if h1.error_rate < UNHEALTHY_ERROR_RATE then "degraded"
        else "unhealthy" }
  else h1

/-- `CircuitBreaker.record_failure` from `health.py`, as a pure function of the
health value read by `get_health`. -/
def record_failure (h : ExchangeHealth) (now msg : String) : ExchangeHealth :=
  let recent := pushWindow h.recent_results false
  let h1 : ExchangeHealth :=
    { h with
      consecutive_failures := h.consecutive_failures + 1
      consecutive_successes := 0
      last_failure_ts := some now
      last_error_message := some (msg.take 500)
      request_count := h.request_count + 1
      recent_results := recent
      error_rate := windowErrorRate recent h.error_rate }
  let circuit_opened :=
    (h1.circuit_state = "closed" ∧ MAX_RETRIES ≤ h1.consecutive_failures) ∨
      h1.circuit_state = "half_open"
  let h2 : ExchangeHealth :=
    if h1.circuit_state = "closed" then
      if MAX_RETRIES ≤ h1.consecutive_failures then
        { h1 with circuit_state := "open", status := "unhealthy" }
      else h1
    else if h1.circuit_state = "half_open" then
      { h1 with circuit_state := "open", status := "unhealthy" }
    else h1
  if circuit_opened then { h2 with reopen_count := h2.reopen_count + 1 } else h2

/-- The round trip through DynamoDB between two breaker calls:
`ExchangeHealth.to_dynamodb` persists every field except `recent_results`
(the dataclass comment marks it "not stored in DynamoDB"), and
`ExchangeHealth.from_dynamodb` rebuilds the dataclass from the stored item,
so `recent_results` comes back as the `field(default_factory=list)` default,
the empty list.  All other fields round-trip unchanged (floats go through
`Decimal(str(_))` and back, exact on our rationals). -/
def dynamodbRoundTrip (h : ExchangeHealth) : ExchangeHealth :=
  { h with recent_results := [] }

/-- The fresh health value `get_health` returns when no record exists
("initializing healthy state"): all dataclass defaults. -/
def defaultHealth (exchange now : String) : ExchangeHealth :=
  { exchange_name := exchange, timestamp := now }

/-- One `record_success`/`record_failure` call of the real tracker: `get_health`
re-reads the persisted item (dropping the in-memory window), the breaker
mutates it, `update_health` persists the result.  `outcome = true` is a
success with the given latency; `outcome = false` a failure with the given
message. -/
def trackerCall (persisted : ExchangeHealth) (outcome : Bool) (now : String)
    (rt : ℚ) (msg : String) : ExchangeHealth :=
  let h := dynamodbRoundTrip persisted
  if outcome then record_success h now rt else record_failure h now msg

/-- `cooldown = min(CIRCUIT_OPEN_WAIT_SECONDS * (2 ** reopen_count),
MAX_CIRCUIT_WAIT_SECONDS)` from `get_wait_time`. -/
def cooldownSeconds (reopen_count : ℕ) : ℕ :=
  min (CIRCUIT_OPEN_WAIT_SECONDS * 2 ^ reopen_count) MAX_CIRCUIT_WAIT_SECONDS

/-- `CircuitBreaker.get_wait_time` from `health.py` (breaker enabled).
`timeSinceFailure` is the float `(now - last_failure).total_seconds()`,
passed in directly; `casWin` is the outcome of the atomic
`conditional_transition(exchange, "open", "half_open")` DynamoDB write
(`should_test_recovery`).  `int(cooldown - time_since_failure)` on the
positive float is the floor. -/
def get_wait_time (h : ExchangeHealth) (timeSinceFailure : ℚ) (casWin : Bool) : ℤ :=
  if h.circuit_state = "closed" then 0
  else if h.circuit_state = "open" then
    if h.last_failure_ts = none then 0
    else
      let cooldown := cooldownSeconds h.reopen_count
      if (cooldown : ℚ) ≤ timeSinceFailure then
        if casWin then 0 else 30
      else ⌊(cooldown : ℚ) - timeSinceFailure⌋
  else if h.circuit_state = "half_open" then 0
  else 0

/-! ## String helpers shared by the key-layout embeddings -/

/-- Python's `s.rstrip('/')`: drop every trailing `/`. -/
def rstripSlash (s : String) : String :=
  String.mk ((s.data.reverse.dropWhile (fun c => c = '/')).reverse)

/-- Auxiliary scan for substring search: does `pat` occur as a prefix of some
suffix of the list? -/
def subAux (pat : List Char) : List Char → Bool
  | [] => pat.isPrefixOf []
  | c :: cs => pat.isPrefixOf (c :: cs) || subAux pat cs

/-- Python's `pat in s` substring test. -/
def containsSub (s pat : String) : Bool := subAux pat.data s.data

/-! ## Checkpoint key layout (`schemahub/checkpoint.py`) -/

/-- `CheckpointManager._s3_key` from `checkpoint.py`:
`f"\x7bself.s3_prefix.rstrip('/')\x7d/checkpoints/\x7bproduct_id\x7d.json"`.
Note that the constructor of `CheckpointManager` in `checkpoint.py` has no
`mode` parameter at all, so the key carries no mode segment. -/
def checkpoint_s3_key ( s3_prefix product_id : String) : String :=
  rstripSlash s3_prefix ++ "/checkpoints/" ++ product_id ++ ".json"

/-! ## Raw object keys (`schemahub/cli.py`) -/

/-- The raw S3 key built by `ingest_coinbase` (`cli.py` line 155):
`f"\x7bprefix.rstrip('/')\x7d/raw_coinbase_trades_\x7bingest_ts:%Y%m%dT%H%M%SZ\x7d_\x7brun_id\x7d.jsonl"`.
`ts` stands for the formatted `ingest_ts`. -/
def ingestRawKey (pfx ts run_id : String) : String :=
  rstripSlash pfx ++ "/raw_coinbase_trades_" ++ ts ++ "_" ++ run_id ++ ".jsonl"

/-- The raw S3 key built by `backfill_product` (`cli.py` lines 612 and 629):
`f"\x7bprefix.rstrip('/')\x7d/raw_coinbase_trades_\x7bproduct_id\x7d_\x7bingest_ts:%Y%m%dT%H%M%SZ\x7d_\x7brun_id\x7d_\x7bfirst_trade_id\x7d_\x7blast_trade_id_in_batch\x7d_\x7blen(cached_trades)\x7d.jsonl"`. -/
def backfillRawKey (pfx product ts run_id : String) (first last count : ℕ) : String :=
  rstripSlash pfx ++ "/raw_coinbase_trades_" ++ product ++ "_" ++ ts ++ "_" ++
    run_id ++ "_" ++ toString first ++ "_" ++ toString last ++ "_" ++
    toString count ++ ".jsonl"

/-- The raw-key template as the specification words it:
`<raw_prefix>/raw_<source>_trades_<product>_<YYYYMMDDTHHMMSSZ>_<run_id>_<first_tid>_<last_tid>_<count>.jsonl`.
This definition follows the spec text (for comparison against the keys the
source builds), not the source. -/
def specRawKey ( raw_prefix source product ts run_id : String)
    (first_tid last_tid count : ℕ) : String :=
  raw_prefix ++ "/raw_" ++ source ++ "_trades_" ++ product ++ "_" ++ ts ++ "_" ++
    run_id ++ "_" ++ toString first_tid ++ "_" ++ toString last_tid ++ "_" ++
    toString count ++ ".jsonl"

/-! ## Ingest control flow (`schemahub/cli.py`, `ingest_coinbase` and the
per-product body of `main`) -/

/-- The fields of a `CoinbaseTrade` the ingest control flow inspects:
`trade_id` and the parsed `time` (modelled as seconds since some epoch). -/
structure Trade where
  trade_id : ℕ
  time : ℚ
deriving Repr, DecidableEq

/-- The watermark test `after is not None and trade.trade_id <= after`. -/
def hitWatermark (after : Option ℕ) (tid : ℕ) : Bool :=
  match after with
  | some a => decide (tid ≤ a)
  | none => false

/-- The per-batch filter loop of `ingest_coinbase`: walk the page in API order;
stop (`hit_cutoff`) at the first trade at or below the watermark `after`, or
the first trade strictly older than `cutoff_time`; keep the rest.  Returns the
kept trades and the `hit_cutoff` flag. -/
def filterBatch (after : Option ℕ) (cutoff : ℚ) : List Trade → List Trade × Bool
  | [] => ([], false)
  | t :: ts =>
    if hitWatermark after t.trade_id then ([], true)
    else if t.time < cutoff then ([], true)
    else
      let r := filterBatch after cutoff ts
      (t :: r.1, r.2)

/-- The fetch loop of `ingest_coinbase`.  The exchange responses are modelled
as the pre-determined list of successive `(trades, next_cursor)` pairs the
API would return; an exhausted list behaves like an empty page.  The loop
stops on an empty page, on `hit_cutoff`, or when no `next_cursor` comes back;
otherwise it accumulates the kept trades (`all_trades`). -/
def collectTrades (after : Option ℕ) (cutoff : ℚ) :
    List (List Trade × Option ℕ) → List Trade
  | [] => []
  | (trades, next) :: rest =>
    if trades.isEmpty then []
    else
      let fb := filterBatch after cutoff trades
      fb.1 ++
        (if fb.2 then [] else
          match next with
          | none => []
          | some _ => collectTrades after cutoff rest)

/-- Observable store events of a product run: a raw-page flush
(`write_jsonl_s3`) under a key, or a checkpoint save carrying the
`last_trade_id` value written (none when the saved dict has no
`last_trade_id` field). -/
inductive Event where
  | flush (key : String)
  | save (v : Option ℕ)
deriving Repr, DecidableEq

/-- Outcome of one product's ingest (or backfill) run: the stored
`last_trade_id` watermark afterwards, the store-event trace in program order,
and whether the run completed without raising. -/
structure RunResult where
  ckpt : Option ℕ
  trace : List Event
  ok : Bool
deriving Repr, DecidableEq

/-- One product iteration of the `ingest` command in `cli.py` `main`
(standard path: no `--skip-checkpoint`, no `--after`):

* `stored` is the `last_trade_id` of the loaded checkpoint (`none` when the
  checkpoint is missing or lacks the field); it becomes the watermark `after`;
* `ingest_coinbase` collects `all_trades` through `collectTrades`;
* with no trades, no flush happens and the checkpoint is re-saved keeping the
  old watermark;
* with trades, the page cache is flushed under `ingestRawKey` first
  (`flushOk = false` models `write_jsonl_s3` raising, which propagates and
  skips the save), and only then is the checkpoint saved with
  `last_trade_id = all_trades[0].trade_id`. -/
def ingestStep (stored : Option ℕ) (cutoff : ℚ)
    (responses : List (List Trade × Option ℕ)) (pfx ts run_id : String)
    (flushOk : Bool) : RunResult :=
  match collectTrades stored cutoff responses with
  | [] => { ckpt := stored, trace := [Event.save stored], ok := true }
  | t :: _ =>
    if flushOk then
      { ckpt := some t.trade_id
        trace := [Event.flush (ingestRawKey pfx ts run_id),
                  Event.save (some t.trade_id)]
        ok := true }
    else { ckpt := stored, trace := [], ok := false }

/-! ## Backfill control flow (`schemahub/cli.py`, `backfill_product`) -/

/-- `cached_trades[0].trade_id` / `cached_trades[-1].trade_id` with the 0
default never reached (the flush sites only run on non-empty caches). -/
def firstId (l : List Trade) : ℕ := ((l.head?).map (fun t => t.trade_id)).getD 0

/-- Last trade id of a cache batch. -/
def lastId (l : List Trade) : ℕ := ((l.getLast?).map (fun t => t.trade_id)).getD 0

/-- Shared tail of `backfill_product`: after the fetch loop exits, flush any
remaining cached trades and checkpoint `new_last_trade_id` (the current
cursor `after`).  `idx` numbers the flush calls so `flushOk` can make a
specific flush raise. -/
def backfillFinal (flushOk : ℕ → Bool) (pfx product ts run_id : String)
    (idx : ℕ) (after : Option ℕ) (cached : List Trade) (stored : Option ℕ) :
    RunResult :=
  match cached with
  | [] => { ckpt := stored, trace := [], ok := true }
  | _ :: _ =>
    if flushOk idx then
      { ckpt := after
        trace := [Event.flush (backfillRawKey pfx product ts run_id
                    (firstId cached) (lastId cached) cached.length),
                  Event.save after]
        ok := true }
    else { ckpt := stored, trace := [], ok := false }

/-- The fetch loop of `backfill_product` (with `checkpoint_mgr` enabled).
`pages` is the pre-determined list of `(page_trades, next_after)` responses.
Each non-empty page extends the local cache and advances the cursor to
`next_after` (falling back to `page_trades[0].trade_id`); when the cache
reaches `cacheSize` it is flushed under `backfillRawKey` and only after a
successful flush is the checkpoint saved with the new cursor.  A raising
flush (`flushOk idx = false`) aborts the run (caught by the surrounding
`except`, status `error`) without touching the checkpoint. -/
def backfillLoop (cacheSize : ℕ) (flushOk : ℕ → Bool)
    (pfx product ts run_id : String) :
    List (List Trade × Option ℕ) → Option ℕ → List Trade → ℕ → Option ℕ →
    RunResult
  | [], after, cached, idx, stored =>
    backfillFinal flushOk pfx product ts run_id idx after cached stored
  | ([], _) :: _, after, cached, idx, stored =>
    backfillFinal flushOk pfx product ts run_id idx after cached stored
  | (t :: ts', next) :: rest, _, cached, idx, stored =>
    let page := t :: ts'
    let cached' := cached ++ page
    let newLast := next.getD t.trade_id
    if cacheSize ≤ cached'.length then
      if flushOk idx then
        let res := backfillLoop cacheSize flushOk pfx product ts run_id rest
          (some newLast) [] (idx + 1) (some newLast)
        { res with
          trace := Event.flush (backfillRawKey pfx product ts run_id
              (firstId cached') (lastId cached') cached'.length) ::
            Event.save (some newLast) :: res.trace }
      else { ckpt := stored, trace := [], ok := false }
    else
      backfillLoop cacheSize flushOk pfx product ts run_id rest
        (some newLast) cached' idx stored

/-- `backfill_product` for one product: start from the loaded checkpoint
watermark, empty cache, first flush index 0. -/
def backfillRun (cacheSize : ℕ) (flushOk : ℕ → Bool)
    (pfx product ts run_id : String) (pages : List (List Trade × Option ℕ))
    (stored : Option ℕ) : RunResult :=
  backfillLoop cacheSize flushOk pfx product ts run_id pages stored [] 0 stored

/-- A trace consists of flush/save pairs: every checkpoint save is immediately
preceded by its batch's successful raw flush. -/
def batchPaired : List Event → Bool
  | [] => true
  | Event.flush _ :: Event.save _ :: rest => batchPaired rest
  | _ => false

/-- The watermark recorded by the last save event of a trace (the initial
value if no save occurred). -/
def lastSaved (init : Option ℕ) : List Event → Option ℕ
  | [] => init
  | Event.save v :: rest => lastSaved v rest
  | Event.flush _ :: rest => lastSaved init rest

/-! ## Parallel fetcher (`schemahub/parallel.py`) -/

/-- `MAX_RETRY_ATTEMPTS = 10` in `parallel.py`. -/
def MAX_RETRY_ATTEMPTS : ℕ := 10

/-- Result of one `connector.fetch_trades_with_cursor` call as the worker sees
it: a page of trades, an exception whose text contains "429" (re-queueable),
or any other exception (permanent). -/
inductive FetchOutcome where
  | ok (trades : List Trade)
  | rateLimited
  | failed (msg : String)
deriving Repr

/-- The cursor-target enumeration of `fetch_trades_parallel`:
`cursor = cursor_start; while cursor < cursor_end: append; cursor += limit`.
(For `limit = 0` the Python loop would not terminate; no caller passes 0 and
the embedding returns `[]` there.) -/
def cursorTargets (start stop limit : ℕ) : List ℕ :=
  if _h : start < stop ∧ 0 < limit then
    start :: cursorTargets (start + limit) stop limit
  else []
termination_by stop - start
decreasing_by omega

/-- The mutable worker state of `fetch_trades_parallel`: the shared results
list, the permanent-error list, the running maximum trade id, and the
completed-page counter.  `pageCounts` additionally records the length of
every page the exchange client returned (instrumentation for stating the
length invariant; it does not influence control flow). -/
structure QState where
  trades : List Trade
  errors : List (ℕ × String)
  highest : ℕ
  pagesCompleted : ℕ
  pageCounts : List ℕ
deriving Repr

/-- `max(t.trade_id for t in trades)` with junk value on the empty list (only
used on non-empty pages). -/
def maxTradeId (l : List Trade) : ℕ := (l.map (fun t => t.trade_id)).foldl max 0

/-- Drain of the shared work queue by the worker pool, as one linearization:
items are `(cursor_target, attempt)` pairs popped from the front; a page is
appended to the results under the lock; a 429 with `attempt <
MAX_RETRY_ATTEMPTS` re-queues `(cursor, attempt + 1)` at the back; any other
failure (or a 429 out of attempts) is recorded as a permanent error.  The
thread interleaving only permutes the unsorted result list, which the caller
sorts, so one linearization captures the observable result. -/
def runQueue (fetch : ℕ → ℕ → FetchOutcome) :
    List (ℕ × ℕ) → QState → QState
  | [], st => st
  | (c, a) :: rest, st =>
    match fetch c a with
    | FetchOutcome.ok trades =>
      if trades.isEmpty then
        runQueue fetch rest
          { st with pagesCompleted := st.pagesCompleted + 1
                    pageCounts := st.pageCounts ++ [0] }
      else
        runQueue fetch rest
          { st with trades := st.trades ++ trades
                    highest := max st.highest (maxTradeId trades)
                    pagesCompleted := st.pagesCompleted + 1
                    pageCounts := st.pageCounts ++ [trades.length] }
    | FetchOutcome.rateLimited =>
      if a < MAX_RETRY_ATTEMPTS then
        runQueue fetch (rest ++ [(c, a + 1)]) st
      else
        runQueue fetch rest { st with errors := st.errors ++ [(c, "429")] }
    | FetchOutcome.failed msg =>
      runQueue fetch rest { st with errors := st.errors ++ [(c, msg)] }
termination_by q _ => 2 * (q.map (fun p => MAX_RETRY_ATTEMPTS + 1 - p.2)).sum + q.length
decreasing_by
  all_goals simp only [List.map_cons, List.map_append, List.sum_cons,
    List.sum_append, List.map_nil, List.sum_nil, List.length_cons,
    List.length_append, List.length_nil, MAX_RETRY_ATTEMPTS] at *
  all_goals omega

/-- `fetch_trades_parallel` from `parallel.py`: enumerate cursor targets,
return early on zero pages, drain the queue, raise if any permanent error
was recorded, otherwise sort the collected trades ascending by `trade_id`
and return them with `highest_trade_id`. -/
def fetch_trades_parallel (fetch : ℕ → ℕ → FetchOutcome)
    (cursor_start cursor_end limit : ℕ) :
    Except String (List Trade × ℕ) :=
  let targets := cursorTargets cursor_start cursor_end limit
  if targets.isEmpty then Except.ok ([], cursor_start)
  else
    let st := runQueue fetch (targets.map (fun c => (c, 0)))
      { trades := [], errors := [], highest := cursor_start,
        pagesCompleted := 0, pageCounts := [] }
    if st.errors.isEmpty then
      Except.ok
        (st.trades.mergeSort (fun a b => decide (a.trade_id ≤ b.trade_id)),
          st.highest)
    else Except.error "permanent fetch failures"

/-! ## Batch validation schema check (`schemahub/validation.py`) -/

/-- The `required_columns` set of `validate_batch_and_check_manifest`
(`validation.py` line 67), kept in source order. -/
def requiredColumns : List String :=
  ["exchange", "symbol", "trade_id", "side", "price", "quantity", "trade_ts",
   "ingest_ts"]

/-- The fixed column schema `write_unified_parquet` (`transform.py`) gives
every produced columnar page (`pa.schema([...])`, which carries the source
comment "no ingest_ts - operational metadata belongs in raw layer only"). -/
def unifiedSchemaColumns : List String :=
  ["exchange", "symbol", "trade_id", "side", "price", "quantity", "trade_ts"]

/-- `missing_columns = required_columns - set(df.columns)` (as a list in the
source order of `required_columns`). -/
def missingColumns (dfColumns : List String) : List String :=
  requiredColumns.filter (fun c => !(dfColumns.contains c))

/-- Whether the batch validator appends a `Missing required columns` issue for
a page with the given columns (`if missing_columns:`). -/
def schemaIssueReported (dfColumns : List String) : Bool :=
  !(missingColumns dfColumns).isEmpty

/-! ## Raw-to-unified projection (`schemahub/transform.py`, `transform_trade`) -/

/-- A JSON value as stored in a parsed raw-trade dict. -/
inductive JVal where
  | s (v : String)
  | n (v : ℚ)
  | b (v : Bool)
  | null
deriving Repr, DecidableEq

/-- Python truthiness of a dict value (used by the `x or y` fallbacks). -/
def jFalsy : JVal → Bool
  | JVal.s v => v.isEmpty
  | JVal.n v => decide (v = 0)
  | JVal.b v => !v
  | JVal.null => true

/-- `x or y` where `x` is a `dict.get` result (`none` = key absent, hence
falsy) and `y` an arbitrary expression. -/
def pyOr (a b : Option JVal) : Option JVal :=
  match a with
  | some v => if jFalsy v then b else some v
  | none => b

/-- `x or y` where the right operand is a definite value (a `get` with
default). -/
def pyOrJ (a : Option JVal) (b : JVal) : JVal :=
  match a with
  | some v => if jFalsy v then b else v
  | none => b

/-- Digits of a numeral to its value. -/
def digitsVal (cs : List Char) : ℕ :=
  cs.foldl (fun n c => 10 * n + (c.toNat - '0'.toNat)) 0

/-- Unsigned part of Python `float(str)` on plain decimal numerals
(`"12"`, `"12.5"`, `".5"`, `"12."`): an integer part, an optional point, a
fractional part, at least one digit in total.  Exponent/inf/nan forms do not
occur in the claims' inputs and are rejected (→ raise). -/
def parsePyFloatUnsigned (cs : List Char) : Option ℚ :=
  let intPart := cs.takeWhile (fun c => c.isDigit)
  let rest := cs.dropWhile (fun c => c.isDigit)
  match rest with
  | [] =>
    if intPart.isEmpty then none else some (digitsVal intPart : ℚ)
  | '.' :: frac =>
    if frac.all (fun c => c.isDigit) && !(intPart.isEmpty && frac.isEmpty) then
      some ((digitsVal intPart : ℚ) + (digitsVal frac : ℚ) / (10 : ℚ) ^ frac.length)
    else none
  | _ => none

/-- Python `float(str)` on decimal numerals with optional sign and surrounding
whitespace. -/
def parsePyFloat (s : String) : Option ℚ :=
  match s.trim.data with
  | '-' :: rest => (parsePyFloatUnsigned rest).map (fun q => -q)
  | '+' :: rest => parsePyFloatUnsigned rest
  | cs => parsePyFloatUnsigned cs

/-- Python `float(x)` on a dict value; `none` models the call raising
(`TypeError` on `None`, `ValueError` on a bad string). -/
def pyFloat : JVal → Option ℚ
  | JVal.s v => parsePyFloat v
  | JVal.n v => some v
  | JVal.b v => some (if v then 1 else 0)
  | JVal.null => none

/-- Python `str(x)` (total; numeral formatting approximated by `toString`,
which agrees with Python on the integral trade ids that occur). -/
def pyStr : JVal → String
  | JVal.s v => v
  | JVal.n v => toString v
  | JVal.b v => if v then "True" else "False"
  | JVal.null => "None"

/-- ASCII lowering for `.lower()`. -/
def lowerAscii (s : String) : String := String.mk (s.data.map Char.toLower)

/-- Python `x.lower()` on a dict value; `none` models the `AttributeError`
raised on non-strings. -/
def pyLowerMethod : JVal → Option String
  | JVal.s v => some (lowerAscii v)
  | _ => none

/-- The raw-trade dict as `transform_trade` reads it: one optional value per
key the function looks up. -/
structure RawTradeDict where
  product_id : Option JVal := none
  product_id_dash : Option JVal := none
  price : Option JVal := none
  size : Option JVal := none
  qty : Option JVal := none
  id : Option JVal := none
  trade_id : Option JVal := none
  side : Option JVal := none
  time : Option JVal := none
  timestamp : Option JVal := none
deriving Repr, DecidableEq

/-- The unified record `transform_trade` builds (`trade_ts` kept as the parsed
timestamp value; its ISO re-serialization is injective on it). -/
structure UnifiedTrade where
  exchange : String
  symbol : Option JVal
  trade_id : String
  side : String
  price : ℚ
  quantity : ℚ
  trade_ts : ℚ
deriving Repr, DecidableEq

/-- The timestamp branch of `transform_trade`: strings containing `"T"` go to
`datetime.fromisoformat` (the external parser `parseIso`; `none` = raise),
other strings through `float` + `fromtimestamp`, non-strings (including an
absent key, i.e. `None`) through `float` directly. -/
def parseTradeTs (parseIso : String → Option ℚ) : Option JVal → Option ℚ
  | some (JVal.s str) =>
    if containsSub str "T" then parseIso str else parsePyFloat str
  | some v => pyFloat v
  | none => none

/-- `transform_trade` from `transform.py`: project one raw dict to the
unified schema; `none` models the `except` branch (record logged and
skipped) reached exactly when one of the conversions raises. -/
def transform_trade (parseIso : String → Option ℚ) (t : RawTradeDict) :
    Option UnifiedTrade := do
  let product_id := pyOr t.product_id t.product_id_dash
  let price ← pyFloat (t.price.getD (JVal.n 0))
  let quantity ← pyFloat (pyOrJ t.size (t.qty.getD (JVal.n 0)))
  let tradeId := pyStr (pyOrJ t.id (t.trade_id.getD (JVal.s "")))
  let side ← pyLowerMethod (t.side.getD (JVal.s ""))
  let trade_ts ← parseTradeTs parseIso (pyOr t.time t.timestamp)
  pure { exchange := "coinbase", symbol := product_id, trade_id := tradeId,
         side := side, price := price, quantity := quantity,
         trade_ts := trade_ts }

/-! ## Theorems -/

/-- C2.  The claim says checkpoints live under
`<prefix>/checkpoints/<mode>/<product>` in disjoint per-mode namespaces.  The
code disagrees: `CheckpointManager.__init__` in `checkpoint.py` has no `mode`
parameter (even though `cli.py` passes `mode="ingest"` / `mode="backfill"` and
`tests/test_checkpoint.py` expects `data/trades/checkpoints/ingest/BTC-USD.json`),
and `_s3_key` produces a key with no mode segment, shared by all modes.  This
theorem evaluates the embedded `_s3_key` at the repo's own test input: the key
it returns is the mode-less one and differs from every mode-scoped key the
claim requires. -/
theorem checkpoint_key_has_no_mode_segment :
    checkpoint_s3_key "data/trades" "BTC-USD"
      = "data/trades/checkpoints/BTC-USD.json" ∧
    checkpoint_s3_key "data/trades" "BTC-USD"
      ≠ "data/trades/checkpoints/ingest/BTC-USD.json" ∧
    checkpoint_s3_key "data/trades" "BTC-USD"
      ≠ "data/trades/checkpoints/full_refresh/BTC-USD.json" ∧
    checkpoint_s3_key "data/trades" "BTC-USD"
      ≠ "data/trades/checkpoints/backfill/BTC-USD.json" := by
  refine ⟨rfl, ?_, ?_, ?_⟩ <;> decide

/-- C9.  The claim says the validator's required column set equals the unified
columnar schema, so a page whose columns are exactly
`exchange, symbol, trade_id, side, price, quantity, trade_ts` draws no
`Missing required columns` issue.  The code disagrees with itself: the
`required_columns` set in `validation.py` additionally demands `ingest_ts`,
a column `write_unified_parquet` in `transform.py` deliberately never writes,
so every page the transform actually produces is flagged. -/
theorem unified_page_fails_required_columns :
    missingColumns unifiedSchemaColumns = ["ingest_ts"] ∧
    schemaIssueReported unifiedSchemaColumns = true ∧
    requiredColumns.contains "ingest_ts" = true := by
  refine ⟨?_, ?_, ?_⟩ <;> decide

/-- C6.  The claim says the rolling window of the last 100 outcomes is
maintained in-process across successive `record_success`/`record_failure`
calls, so after a success followed by a failure the persisted `error_rate` is
1/2.  In the code every call re-reads health from DynamoDB
(`get_health` → `from_dynamodb`), and `recent_results` is not persisted, so
the window restarts empty on each call: after the sequence
success-then-failure the persisted window holds only the final outcome and
`error_rate` is 1, not 1/2. -/
theorem error_rate_window_resets_each_call :
    (trackerCall (trackerCall (defaultHealth "coinbase" "t0") true "t1" 100 "")
        false "t2" 0 "HTTP 500").error_rate = 1 ∧
    (trackerCall (trackerCall (defaultHealth "coinbase" "t0") true "t1" 100 "")
        false "t2" 0 "HTTP 500").recent_results.length = 1 ∧
    ¬ (trackerCall (trackerCall (defaultHealth "coinbase" "t0") true "t1" 100 "")
        false "t2" 0 "HTTP 500").error_rate = 1/2 := by
  refine ⟨?_, ?_, ?_⟩ <;>
    norm_num [trackerCall, dynamodbRoundTrip, record_success, record_failure,
      defaultHealth, pushWindow, windowErrorRate, countFailures,
      SUCCESS_THRESHOLD, MAX_RETRIES, ROLLING_WINDOW_SIZE,
      DEGRADED_ERROR_RATE, UNHEALTHY_ERROR_RATE] <;>
    rw [if_neg (show ¬ ("closed" : String) = "half_open" from by decide)] <;>
    norm_num

/-- C5.  `get_wait_time` returns 0 when the circuit is closed and 0 when it is
half-open; when it is open (with a recorded failure time) the cooldown is
`min(10 · 2^reopen_count, 120)` seconds, a caller inside the cooldown gets the
remaining gap, and once the cooldown has elapsed the caller that wins the
atomic open→half-open transition gets 0 while every loser gets 30; for
`reopen_count = 7` the cooldown is capped at 120 seconds. -/
theorem get_wait_time_spec (h : ExchangeHealth) (tsf : ℚ) (casWin : Bool) :
    (h.circuit_state = "closed" → get_wait_time h tsf casWin = 0) ∧
    (h.circuit_state = "half_open" → get_wait_time h tsf casWin = 0) ∧
    (h.circuit_state = "open" → h.last_failure_ts ≠ none →
      cooldownSeconds h.reopen_count = min (10 * 2 ^ h.reopen_count) 120 ∧
      (tsf < (cooldownSeconds h.reopen_count : ℚ) →
        get_wait_time h tsf casWin = ⌊(cooldownSeconds h.reopen_count : ℚ) - tsf⌋) ∧
      ((cooldownSeconds h.reopen_count : ℚ) ≤ tsf →
        get_wait_time h tsf casWin = if casWin then 0 else 30)) ∧
    cooldownSeconds 7 = 120 := by
  refine ⟨?_, ?_, ?_, by decide⟩
  · intro hc
    simp [get_wait_time, hc]
  · intro hc
    simp [get_wait_time, hc]
  · intro hc hlf
    refine ⟨rfl, ?_, ?_⟩
    · intro hlt
      simp [get_wait_time, hc, hlf, not_le.mpr hlt]
    · intro hge
      simp [get_wait_time, hc, hlf, hge]

/-- Witness for `get_wait_time_spec`: an open circuit with `reopen_count = 1`
(cooldown 20 s) probed 5 s after the last failure waits the remaining 15 s. -/
theorem get_wait_time_spec_witness :
    get_wait_time
      { defaultHealth "coinbase" "t0" with
        circuit_state := "open", last_failure_ts := some "t1", reopen_count := 1 }
      5 true = 15 := by
  have h := get_wait_time_spec
    { defaultHealth "coinbase" "t0" with
      circuit_state := "open", last_failure_ts := some "t1", reopen_count := 1 }
    5 true
  have h2 := (h.2.2.1 rfl (by simp)).2.1 (by norm_num [cooldownSeconds,
    CIRCUIT_OPEN_WAIT_SECONDS, MAX_CIRCUIT_WAIT_SECONDS])
  rw [h2]
  norm_num [cooldownSeconds, CIRCUIT_OPEN_WAIT_SECONDS, MAX_CIRCUIT_WAIT_SECONDS]

/-- C4.  The circuit state machine: a failure in `closed` whose updated
consecutive-failure count reaches `MAX_RETRIES = 5` opens the circuit and
increments `reopen_count`; a failure in `half_open` immediately opens it and
increments `reopen_count`; a success in `half_open` whose updated
consecutive-success count reaches `SUCCESS_THRESHOLD = 3` closes it, marks the
status healthy and resets `reopen_count` to 0; every other
`record_success`/`record_failure` call leaves the circuit state (and
`reopen_count`) unchanged. -/
theorem circuit_transition_rules (h : ExchangeHealth) (now msg : String) (rt : ℚ) :
    (h.circuit_state = "closed" → MAX_RETRIES ≤ h.consecutive_failures + 1 →
      (record_failure h now msg).circuit_state = "open" ∧
      (record_failure h now msg).reopen_count = h.reopen_count + 1) ∧
    (h.circuit_state = "closed" → h.consecutive_failures + 1 < MAX_RETRIES →
      (record_failure h now msg).circuit_state = "closed" ∧
      (record_failure h now msg).reopen_count = h.reopen_count) ∧
    (h.circuit_state = "half_open" →
      (record_failure h now msg).circuit_state = "open" ∧
      (record_failure h now msg).reopen_count = h.reopen_count + 1) ∧
    (h.circuit_state = "open" →
      (record_failure h now msg).circuit_state = "open" ∧
      (record_failure h now msg).reopen_count = h.reopen_count) ∧
    (h.circuit_state = "half_open" → SUCCESS_THRESHOLD ≤ h.consecutive_successes + 1 →
      (record_success h now rt).circuit_state = "closed" ∧
      (record_success h now rt).status = "healthy" ∧
      (record_success h now rt).reopen_count = 0) ∧
    (h.circuit_state = "half_open" → h.consecutive_successes + 1 < SUCCESS_THRESHOLD →
      (record_success h now rt).circuit_state = "half_open" ∧
      (record_success h now rt).reopen_count = h.reopen_count) ∧
    (h.circuit_state = "closed" →
      (record_success h now rt).circuit_state = "closed" ∧
      (record_success h now rt).reopen_count = h.reopen_count) ∧
    (h.circuit_state = "open" →
      (record_success h now rt).circuit_state = "open" ∧
      (record_success h now rt).reopen_count = h.reopen_count) := by
  refine ⟨?_, ?_, ?_, ?_, ?_, ?_, ?_, ?_⟩
  · intro hc hf
    simp [record_failure, hc, hf]
  · intro hc hf
    simp [record_failure, hc, Nat.not_le.mpr hf]
  · intro hc
    simp [record_failure, hc]
  · intro hc
    simp [record_failure, hc]
  · intro hc hs
    simp [record_success, hc, hs]
  · intro hc hs
    simp [record_success, hc, Nat.not_le.mpr hs]
  · intro hc
    simp [record_success, hc]
  · intro hc
    simp [record_success, hc]

/-- If the pattern occurs in `y` it occurs in `x ++ y`. -/
theorem subAux_append (pat x y : List Char) (h : subAux pat y = true) :
    subAux pat (x ++ y) = true := by
  induction x with
  | nil => simpa using h
  | cons c cs ih => simp [subAux, ih]

/-- The pattern occurs at the head of `pat ++ z`. -/
theorem subAux_self (pat z : List Char) : subAux pat (pat ++ z) = true := by
  cases pat with
  | nil =>
    cases z with
    | nil => simp [subAux, List.isPrefixOf]
    | cons c cs => simp [subAux, List.isPrefixOf]
  | cons p ps =>
    have hpre : List.isPrefixOf (p :: ps) ((p :: ps) ++ z) = true :=
      List.isPrefixOf_iff_prefix.mpr (List.prefix_append _ _)
    rw [List.cons_append] at hpre ⊢
    simp [subAux, hpre]

/-- A string of the shape `a ++ (pat ++ b)` contains `pat`. -/
theorem containsSub_append_middle (a pat b : String) :
    containsSub (a ++ (pat ++ b)) pat = true := by
  unfold containsSub
  rw [String.data_append, String.data_append]
  exact subAux_append _ _ _ (subAux_self _ _)

/-- C8 (amended).  Only the backfill raw keys have the claimed full form
`<raw_prefix>/raw_coinbase_trades_<product>_<ts>_<run_id>_<first>_<last>_<count>.jsonl`
(in particular they contain the product identifier); the ingest raw keys have
the shorter form `<raw_prefix>/raw_coinbase_trades_<ts>_<run_id>.jsonl`
without product, trade-id range, or record count. -/
theorem raw_key_forms (pfx product ts run_id : String) (first last count : ℕ) :
    backfillRawKey pfx product ts run_id first last count
      = specRawKey (rstripSlash pfx) "coinbase" product ts run_id first last count
    ∧ containsSub (backfillRawKey pfx product ts run_id first last count)
        product = true
    ∧ ingestRawKey pfx ts run_id
      = rstripSlash pfx ++ "/raw_coinbase_trades_" ++ ts ++ "_" ++ run_id ++
        ".jsonl" := by
  refine ⟨?_, ?_, rfl⟩
  · have key : ∀ s : String,
        ((s ++ "/raw_") ++ "coinbase") ++ "_trades_" = s ++ "/raw_coinbase_trades_" := by
      intro s
      rw [String.append_assoc, String.append_assoc]
      rfl
    unfold backfillRawKey specRawKey
    rw [key]
  · unfold backfillRawKey
    simp only [String.append_assoc]
    rw [← String.append_assoc (rstripSlash pfx) "/raw_coinbase_trades_"]
    exact containsSub_append_middle _ _ _

/-- C8 (counterexample).  The claim says every raw key of an ingest or
backfill run includes the product identifier (and trade-id range and count).
The key `ingest_coinbase` actually builds for product `BTC-USD` (cli.py line
155) does not even contain the product identifier. -/
theorem ingest_raw_key_lacks_product :
    containsSub
      (ingestRawKey "schemahub/raw_coinbase_trades" "20260101T000000Z" "4fa2b1c0")
      "BTC-USD" = false := by
  decide

/-- Witness for `circuit_transition_rules`: the fifth consecutive failure of a
closed circuit opens it with `reopen_count` going 0 → 1. -/
theorem circuit_transition_rules_witness :
    (record_failure
      { defaultHealth "coinbase" "t0" with consecutive_failures := 4 }
      "t1" "boom").circuit_state = "open" ∧
    (record_failure
      { defaultHealth "coinbase" "t0" with consecutive_failures := 4 }
      "t1" "boom").reopen_count = 1 := by
  have h := circuit_transition_rules
    { defaultHealth "coinbase" "t0" with consecutive_failures := 4 } "t1" "boom" 0
  exact (h.1 rfl (by decide))

/-- Every trade the per-batch filter keeps lies strictly above the watermark:
the loop breaks at the first trade at or below `after` before appending it. -/
theorem mem_filterBatch_gt (a : ℕ) (cutoff : ℚ) (l : List Trade) :
    ∀ t ∈ (filterBatch (some a) cutoff l).1, a < t.trade_id := by
  induction l with
  | nil => simp [filterBatch]
  | cons t ts ih =>
    intro u hu
    unfold filterBatch at hu
    by_cases hw : hitWatermark (some a) t.trade_id
    · simp [hw] at hu
    · rw [if_neg hw] at hu
      by_cases hc : t.time < cutoff
      · simp [hc] at hu
      · rw [if_neg hc] at hu
        simp only [List.mem_cons] at hu
        rcases hu with rfl | hu
        · have hle : ¬ u.trade_id ≤ a := by simpa [hitWatermark] using hw
          omega
        · exact ih u hu

/-- Every trade `ingest_coinbase` accumulates lies strictly above the
watermark. -/
theorem mem_collectTrades_gt (a : ℕ) (cutoff : ℚ)
    (rs : List (List Trade × Option ℕ)) :
    ∀ t ∈ collectTrades (some a) cutoff rs, a < t.trade_id := by
  induction rs with
  | nil => simp [collectTrades]
  | cons r rest ih =>
    intro u hu
    obtain ⟨trades, next⟩ := r
    unfold collectTrades at hu
    by_cases he : trades.isEmpty
    · simp [he] at hu
    · rw [if_neg he] at hu
      simp only [List.mem_append] at hu
      rcases hu with hu | hu
      · exact mem_filterBatch_gt a cutoff trades u hu
      · by_cases hf : (filterBatch (some a) cutoff trades).2
        · simp [hf] at hu
        · rw [if_neg (by simp [hf])] at hu
          cases next with
          | none => simp at hu
          | some n => exact ih u hu

/-- C3.  One product iteration of the ingest command never stores a
`last_trade_id` below the one it just read: with new trades the saved value is
`all_trades[0].trade_id`, which the watermark filter guarantees exceeds the
loaded watermark; with no new trades the loaded watermark is re-saved
unchanged; a failed flush leaves the checkpoint untouched.  Hence the stored
checkpoint is monotonically non-decreasing across runs. -/
theorem checkpoint_watermark_monotone (a : ℕ) (cutoff : ℚ)
    (rs : List (List Trade × Option ℕ)) (pfx ts run_id : String)
    (flushOk : Bool) :
    ∃ v, (ingestStep (some a) cutoff rs pfx ts run_id flushOk).ckpt = some v ∧
      a ≤ v := by
  unfold ingestStep
  rcases hts : collectTrades (some a) cutoff rs with _ | ⟨t, rest⟩
  · exact ⟨a, rfl, le_refl a⟩
  · cases flushOk with
    | true =>
      refine ⟨t.trade_id, by simp, le_of_lt ?_⟩
      exact mem_collectTrades_gt a cutoff rs t (hts ▸ List.mem_cons_self t rest)
    | false => exact ⟨a, by simp, le_refl a⟩

/-- Every checkpoint save in a backfill trace is immediately preceded by its
batch's successful flush. -/
theorem backfillLoop_batchPaired (cacheSize : ℕ) (flushOk : ℕ → Bool)
    (pfx product ts run_id : String) :
    ∀ (pages : List (List Trade × Option ℕ)) (after : Option ℕ)
      (cached : List Trade) (idx : ℕ) (stored : Option ℕ),
      batchPaired (backfillLoop cacheSize flushOk pfx product ts run_id pages
        after cached idx stored).trace = true := by
  intro pages
  induction pages with
  | nil =>
    intro after cached idx stored
    unfold backfillLoop backfillFinal
    cases cached with
    | nil => rfl
    | cons c cs =>
      by_cases hf : flushOk idx
      · simp [hf, batchPaired]
      · simp [hf, batchPaired]
  | cons page rest ih =>
    intro after cached idx stored
    obtain ⟨trades, next⟩ := page
    cases trades with
    | nil =>
      unfold backfillLoop backfillFinal
      cases cached with
      | nil => rfl
      | cons c cs =>
        by_cases hf : flushOk idx
        · simp [hf, batchPaired]
        · simp [hf, batchPaired]
    | cons t ts' =>
      unfold backfillLoop
      by_cases hlen : cacheSize ≤ cached.length + (ts'.length + 1)
      · by_cases hf : flushOk idx
        · simpa [hlen, hf, batchPaired] using ih _ _ _ _
        · simp [hlen, hf, batchPaired]
      · simpa [hlen] using ih _ _ _ _

/-- The checkpoint a backfill run leaves behind is exactly the value of the
last save event in its trace (the initial checkpoint if no save happened):
checkpoint writes happen only through flush-then-save batches. -/
theorem backfillLoop_ckpt_lastSaved (cacheSize : ℕ) (flushOk : ℕ → Bool)
    (pfx product ts run_id : String) :
    ∀ (pages : List (List Trade × Option ℕ)) (after : Option ℕ)
      (cached : List Trade) (idx : ℕ) (stored : Option ℕ),
      (backfillLoop cacheSize flushOk pfx product ts run_id pages after cached
        idx stored).ckpt =
      lastSaved stored (backfillLoop cacheSize flushOk pfx product ts run_id
        pages after cached idx stored).trace := by
  intro pages
  induction pages with
  | nil =>
    intro after cached idx stored
    unfold backfillLoop backfillFinal
    cases cached with
    | nil => rfl
    | cons c cs =>
      by_cases hf : flushOk idx
      · simp [hf, lastSaved]
      · simp [hf, lastSaved]
  | cons page rest ih =>
    intro after cached idx stored
    obtain ⟨trades, next⟩ := page
    cases trades with
    | nil =>
      unfold backfillLoop backfillFinal
      cases cached with
      | nil => rfl
      | cons c cs =>
        by_cases hf : flushOk idx
        · simp [hf, lastSaved]
        · simp [hf, lastSaved]
    | cons t ts' =>
      unfold backfillLoop
      by_cases hlen : cacheSize ≤ cached.length + (ts'.length + 1)
      · by_cases hf : flushOk idx
        · simpa [hlen, hf, lastSaved] using ih _ _ _ _
        · simp [hlen, hf, lastSaved]
      · simpa [hlen] using ih _ _ _ _

/-- C1.  Flush-then-checkpoint ordering.  For the ingest command: when the run
collected trades and the flush succeeds, the trace is exactly the raw flush
followed by the checkpoint save (the flush strictly precedes the save); when
the flush raises, the run fails, no save event occurs and the stored
checkpoint is unchanged.  For backfill: every save in the trace is immediately
preceded by its batch's successful flush, and the final checkpoint is the
value of the last completed save — a batch whose flush raises contributes no
checkpoint write, leaving the checkpoint at the previous batch's value. -/
theorem flush_precedes_checkpoint (stored stored2 : Option ℕ) (cutoff : ℚ)
    (rs pages : List (List Trade × Option ℕ))
    (pfx product ts run_id : String) (cacheSize : ℕ) (flushOk : ℕ → Bool) :
    (collectTrades stored cutoff rs ≠ [] →
      (ingestStep stored cutoff rs pfx ts run_id true).trace
        = [Event.flush (ingestRawKey pfx ts run_id),
           Event.save ((collectTrades stored cutoff rs).head?.map
             (fun t => t.trade_id))]) ∧
    (collectTrades stored cutoff rs ≠ [] →
      (ingestStep stored cutoff rs pfx ts run_id false).ok = false ∧
      (ingestStep stored cutoff rs pfx ts run_id false).ckpt = stored ∧
      (ingestStep stored cutoff rs pfx ts run_id false).trace = []) ∧
    batchPaired (backfillRun cacheSize flushOk pfx product ts run_id pages
      stored2).trace = true ∧
    (backfillRun cacheSize flushOk pfx product ts run_id pages stored2).ckpt
      = lastSaved stored2 (backfillRun cacheSize flushOk pfx product ts run_id
          pages stored2).trace := by
  refine ⟨?_, ?_, ?_, ?_⟩
  · intro hne
    unfold ingestStep
    rcases hts : collectTrades stored cutoff rs with _ | ⟨t, rest⟩
    · exact absurd hts hne
    · simp
  · intro hne
    unfold ingestStep
    rcases hts : collectTrades stored cutoff rs with _ | ⟨t, rest⟩
    · exact absurd hts hne
    · exact ⟨rfl, rfl, rfl⟩
  · exact backfillLoop_batchPaired cacheSize flushOk pfx product ts run_id
      pages stored2 [] 0 stored2
  · exact backfillLoop_ckpt_lastSaved cacheSize flushOk pfx product ts run_id
      pages stored2 [] 0 stored2

/-- Witness for `flush_precedes_checkpoint`: a run that picks up one trade
above the watermark flushes the page and then saves the new watermark. -/
theorem flush_precedes_checkpoint_witness :
    (ingestStep (some 5) 0 [([⟨8, 1⟩], none)] "p" "ts" "r" true).trace
      = [Event.flush (ingestRawKey "p" "ts" "r"), Event.save (some 8)] := by
  have h := flush_precedes_checkpoint (some 5) none 0 [([⟨8, 1⟩], none)] []
    "p" "q" "ts" "r" 2 (fun _ => true)
  have h2 := h.1 (by decide)
  simpa using h2

/-- Queue-drain invariant: the length added to the shared result list equals
the sum of the page counts the exchange client returned. -/
theorem runQueue_length_eq (fetch : ℕ → ℕ → FetchOutcome) :
    ∀ (q : List (ℕ × ℕ)) (st : QState),
      (runQueue fetch q st).trades.length + st.pageCounts.sum
        = (runQueue fetch q st).pageCounts.sum + st.trades.length := by
  intro q st
  induction q, st using runQueue.induct fetch with
  | case1 st =>
    unfold runQueue
    omega
  | case2 c a rest st trades hfetch hemp ih =>
    unfold runQueue
    simp only [hfetch, hemp, if_true]
    simp only [List.sum_append, List.length_append, List.sum_cons,
      List.sum_nil] at ih ⊢
    omega
  | case3 c a rest st trades hfetch hemp ih =>
    unfold runQueue
    simp only [hfetch, hemp, if_false, Bool.false_eq_true]
    simp only [List.sum_append, List.length_append, List.sum_cons,
      List.sum_nil] at ih ⊢
    omega
  | case4 c a rest st hfetch hlt ih =>
    unfold runQueue
    simp only [hfetch]
    rw [if_pos hlt]
    exact ih
  | case5 c a rest st hfetch hlt ih =>
    unfold runQueue
    simp only [hfetch]
    rw [if_neg hlt]
    exact ih
  | case6 c a rest st msg hfetch ih =>
    unfold runQueue
    simp only [hfetch]
    exact ih

/-- C7.  Whenever `fetch_trades_parallel` returns (rather than raising), the
returned trade list is sorted ascending by `trade_id` and its length equals
the sum of the per-page trade counts the exchange client returned over the
enumerated cursor targets (re-queued 429 pages contribute their eventual
successful page); and if any permanent failure was recorded, the whole
invocation raises. -/
theorem parallel_fetch_spec (fetch : ℕ → ℕ → FetchOutcome)
    (cursor_start cursor_end limit : ℕ) :
    (∀ trades hi,
        fetch_trades_parallel fetch cursor_start cursor_end limit
          = Except.ok (trades, hi) →
        List.Pairwise (fun a b => a.trade_id ≤ b.trade_id) trades ∧
        trades.length =
          (runQueue fetch
            ((cursorTargets cursor_start cursor_end limit).map (fun c => (c, 0)))
            { trades := [], errors := [], highest := cursor_start,
              pagesCompleted := 0, pageCounts := [] }).pageCounts.sum) ∧
    ((runQueue fetch
        ((cursorTargets cursor_start cursor_end limit).map (fun c => (c, 0)))
        { trades := [], errors := [], highest := cursor_start,
          pagesCompleted := 0, pageCounts := [] }).errors ≠ [] →
      ∃ e, fetch_trades_parallel fetch cursor_start cursor_end limit
        = Except.error e) := by
  constructor
  · intro trades hi hok
    unfold fetch_trades_parallel at hok
    by_cases hT : (cursorTargets cursor_start cursor_end limit).isEmpty
    · rw [if_pos hT] at hok
      simp only [Except.ok.injEq, Prod.mk.injEq] at hok
      obtain ⟨h1, h2⟩ := hok
      subst h1
      rw [List.isEmpty_iff] at hT
      rw [hT]
      simp only [List.map_nil]
      refine ⟨List.Pairwise.nil, ?_⟩
      unfold runQueue
      simp
    · rw [if_neg hT] at hok
      by_cases hE : (runQueue fetch
          ((cursorTargets cursor_start cursor_end limit).map (fun c => (c, 0)))
          { trades := [], errors := [], highest := cursor_start,
            pagesCompleted := 0, pageCounts := [] }).errors.isEmpty
      · rw [if_pos hE] at hok
        simp only [Except.ok.injEq, Prod.mk.injEq] at hok
        obtain ⟨h1, h2⟩ := hok
        subst h1
        constructor
        · refine List.Pairwise.imp ?_
            (@List.sorted_mergeSort Trade
              (fun a b => decide (a.trade_id ≤ b.trade_id))
              (fun a b c hab hbc => by
                simp only [decide_eq_true_eq] at hab hbc ⊢
                omega)
              (fun a b => by
                simp only [Bool.or_eq_true, decide_eq_true_eq]
                omega)
              _)
          intro a b hab
          simpa using hab
        · rw [(List.mergeSort_perm _ _).length_eq]
          have hinv := runQueue_length_eq fetch
            ((cursorTargets cursor_start cursor_end limit).map (fun c => (c, 0)))
            { trades := [], errors := [], highest := cursor_start,
              pagesCompleted := 0, pageCounts := [] }
          simpa using hinv
      · rw [if_neg hE] at hok
        exact absurd hok (by simp)
  · intro hne
    unfold fetch_trades_parallel
    by_cases hT : (cursorTargets cursor_start cursor_end limit).isEmpty
    · exfalso
      apply hne
      rw [List.isEmpty_iff] at hT
      rw [hT]
      simp only [List.map_nil]
      unfold runQueue
      rfl
    · rw [if_neg hT]
      have hE : ¬ (runQueue fetch
          ((cursorTargets cursor_start cursor_end limit).map (fun c => (c, 0)))
          { trades := [], errors := [], highest := cursor_start,
            pagesCompleted := 0, pageCounts := [] }).errors.isEmpty := by
        simpa [List.isEmpty_iff] using hne
      rw [if_neg hE]
      exact ⟨_, rfl⟩

/-- Witness for `parallel_fetch_spec`: two cursor targets each yielding a
two-trade page out of order; the invocation returns the four trades sorted by
`trade_id`, and 4 is the sum of the recorded per-page counts. -/
theorem parallel_fetch_spec_witness :
    List.Pairwise (fun a b => a.trade_id ≤ b.trade_id)
      [(⟨0, 0⟩ : Trade), ⟨1, 0⟩, ⟨1, 0⟩, ⟨2, 0⟩] ∧
    ([(⟨0, 0⟩ : Trade), ⟨1, 0⟩, ⟨1, 0⟩, ⟨2, 0⟩]).length =
      (runQueue (fun c _ => FetchOutcome.ok [⟨c + 1, 0⟩, ⟨c, 0⟩])
        ((cursorTargets 0 2 1).map (fun c => (c, 0)))
        { trades := [], errors := [], highest := 0, pagesCompleted := 0,
          pageCounts := [] }).pageCounts.sum :=
  (parallel_fetch_spec (fun c _ => FetchOutcome.ok [⟨c + 1, 0⟩, ⟨c, 0⟩]) 0 2 1).1
    [⟨0, 0⟩, ⟨1, 0⟩, ⟨1, 0⟩, ⟨2, 0⟩] 2
    (by simp [fetch_trades_parallel, cursorTargets, runQueue.eq_def,
      maxTradeId, List.mergeSort])

/-- C10.  `transform_trade` does not treat an absent `price` or `size` field
as a failed projection: with the other conversions succeeding it returns a
unified record with `price = 0.0` (the `trade.get("price", 0)` default)
and/or `quantity = 0.0` (the `trade.get("qty", 0)` fallback), and an
empty-string `side` when `side` is absent; and the record is returned as
`None` (skipped) exactly when one of the field conversions raises. -/
theorem transform_trade_defaults (parseIso : String → Option ℚ)
    (t : RawTradeDict) :
    (∀ u, transform_trade parseIso t = some u →
        (t.price = none → u.price = 0) ∧
        (t.size = none → t.qty = none → u.quantity = 0) ∧
        (t.side = none → u.side = "")) ∧
    (transform_trade parseIso t = none ↔
        pyFloat (t.price.getD (JVal.n 0)) = none ∨
        pyFloat (pyOrJ t.size (t.qty.getD (JVal.n 0))) = none ∨
        pyLowerMethod (t.side.getD (JVal.s "")) = none ∨
        parseTradeTs parseIso (pyOr t.time t.timestamp) = none) := by
  constructor
  · intro u hu
    rcases h1 : pyFloat (t.price.getD (JVal.n 0)) with _ | p
    · simp [transform_trade, h1] at hu
    · rcases h2 : pyFloat (pyOrJ t.size (t.qty.getD (JVal.n 0))) with _ | q
      · simp [transform_trade, h1, h2] at hu
      · rcases h3 : pyLowerMethod (t.side.getD (JVal.s "")) with _ | sd
        · simp [transform_trade, h1, h2, h3] at hu
        · rcases h4 : parseTradeTs parseIso (pyOr t.time t.timestamp) with _ | tts
          · simp [transform_trade, h1, h2, h3, h4] at hu
          · simp only [transform_trade, h1, h2, h3, h4, Option.bind_eq_bind,
              Option.some_bind, Option.pure_def, Option.some.injEq] at hu
            subst hu
            refine ⟨?_, ?_, ?_⟩
            · intro hpn
              rw [hpn] at h1
              simp [pyFloat] at h1
              simp [h1]
            · intro hsn hqn
              rw [hsn, hqn] at h2
              simp [pyFloat, pyOrJ] at h2
              simp [h2]
            · intro hdn
              rw [hdn] at h3
              simp [pyLowerMethod, lowerAscii] at h3
              simp [h3]
  · rcases h1 : pyFloat (t.price.getD (JVal.n 0)) with _ | p <;>
      rcases h2 : pyFloat (pyOrJ t.size (t.qty.getD (JVal.n 0))) with _ | q <;>
      rcases h3 : pyLowerMethod (t.side.getD (JVal.s "")) with _ | sd <;>
      rcases h4 : parseTradeTs parseIso (pyOr t.time t.timestamp) with _ | tts <;>
      simp [transform_trade, h1, h2, h3, h4]

/-- Witness for `transform_trade_defaults`: a raw trade with `price`, `size`,
`qty` and `side` all absent and a numeric `time` projects to a unified record
with price 0, quantity 0 and empty side. -/
theorem transform_trade_defaults_witness :
    ({ exchange := "coinbase", symbol := none, trade_id := "", side := "",
       price := 0, quantity := 0, trade_ts := 100 } : UnifiedTrade).price = 0 ∧
    ({ exchange := "coinbase", symbol := none, trade_id := "", side := "",
       price := 0, quantity := 0, trade_ts := 100 } : UnifiedTrade).quantity = 0 ∧
    ({ exchange := "coinbase", symbol := none, trade_id := "", side := "",
       price := 0, quantity := 0, trade_ts := 100 } : UnifiedTrade).side = "" := by
  have h := (transform_trade_defaults (fun _ => none)
    { time := some (JVal.n 100) }).1
    { exchange := "coinbase", symbol := none, trade_id := "", side := "",
      price := 0, quantity := 0, trade_ts := 100 } (by rfl)
  exact ⟨h.1 rfl, h.2.1 rfl rfl, h.2.2 rfl⟩

end Schemahub
